import Mathlib

/-!
Verification of the AwesomeTTS dispatch router
(`awesometts/classes/router.py`) against its natural-language
specification.

The development is a shallow embedding of the router's core: option
values, option descriptors and their validation, the lazily-initialized
service registry, the content-addressed cache path resolver, the
in-flight ("busy") set, and the asynchronous dispatch pipeline
(`Router.__call__` plus the worker-pool completion callback).

External collaborators (the `services` bundle's `normalize`/`textize`
functions, the SHA-1 hex digest, and the filesystem existence check) are
pure functions in Python and are passed in through an `Env` record; the
mutable parts of the router (`_busy` and the lazily-populated per-service
lookup dicts) are threaded explicitly as state.
-/

namespace AwesomeTTS

/-- An option value as it travels through the router: Python callers pass
strings or numbers; transforms may produce either. -/
inductive Val where
  | str (s : String)
  | int (n : Int)
deriving DecidableEq

/-- Python 2's `<=` on the value universe used here: within a type the
native order, across types numbers sort before strings (Python 2 orders
mixed types by type name, and "int" < "str").  Used by
`sorted(options.items())` in `Router._path_cache` — with distinct dict
keys the value comparison is never actually reached, but we model the
full tuple order faithfully. -/
def valLe : Val → Val → Bool
  | .int m, .int n => decide (m ≤ n)
  | .str s, .str t => decide (s ≤ t)
  | .int _, .str _ => true
  | .str _, .int _ => false

/-- Python 2's `<` on the value universe (strict part of `valLe`). -/
def valLt (a b : Val) : Bool :=
  valLe a b && !(valLe b a)

/-- Python's `str()` on the value universe, as used when serializing
`key=value` pairs in `Router._path_cache`. -/
def valStr : Val → String
  | .str s => s
  | .int n => toString n

/-- Python 2's comparison on the `(key, value)` tuples produced by
`options.items()`: lexicographic, key first. -/
def pairLE (a b : String × Val) : Prop :=
  a.1 < b.1 ∨ (a.1 = b.1 ∧ valLe a.2 b.2 = true)

instance : DecidableRel pairLE := fun a b => by
  unfold pairLE; exact instDecidableOr

/-- The legal-value domain of an option descriptor
(`svc_option['values']`): either a closed list of `(value, description)`
pairs, or a Python tuple — used by the code as a numeric inclusive range
whose bounds sit at indices 0 and 1. -/
inductive Domain where
  | list (items : List (Val × String))
  | tuple (items : List Val)

/-- An option dict as returned by a service's `options()` call, before
`Router._fetch_options` has asserted its shape: every field a Python
dict may simply lack is an `Option`. -/
structure RawOption where
  key : Option String
  label : Option String
  values : Option Domain
  transform : Option (Val → Option Val)
  default : Option Val

/-- A validated option descriptor as stored in `service['options']`
after `Router._fetch_options` has checked and post-processed it.  The
`transform` models the Python callable; returning `none` models it
raising `ValueError`. -/
structure SvcOption where
  key : String
  label : String
  values : Domain
  transform : Val → Option Val
  default : Option Val

/-- A problem recorded by `Router._validate_options`, abstracting the
three problem-string shapes it can append. -/
inductive Problem where
  | invalidValue (v : Val) (key : String)
  | notAnOption (v : Val) (key : String)
  | required (key : String)
deriving DecidableEq

/-- The errors the router can hand to the failure callback, one per
distinct raise site (the spec's error taxonomy): `inputError` is the
`ValueError` from `_validate_text`, `unknownBackend` the `ValueError`
from `_fetch_service`'s `KeyError` handler, `unavailable` its
`EnvironmentError`, `optionError` the `ValueError` raised on a non-empty
problem list, `busyError` the `Router.BusyError`, `assertionError` an
`AssertionError` from `_fetch_options`'s schema checks, and `execError`
an exception raised by a service's `run`. -/
inductive Err where
  | inputError
  | unknownBackend (svcId : String)
  | unavailable (name : String)
  | optionError (problems : List Problem)
  | busyError (path : String)
  | assertionError
  | execError
deriving DecidableEq

/-- A live service object, as produced by a successful service-class
construction: the router consumes only its `options()` result (its
`run` is opaque to the router — the worker reports its outcome). -/
structure SvcInstance where
  rawOptions : List RawOption

/-- A service class as registered in the `mappings` list: `NAME` and
`TRAITS` class attributes (possibly `None`), and the constructor's
outcome — `none` models the constructor raising. -/
structure SvcClass where
  NAME : Option String
  TRAITS : Option (List String)
  init : Option SvcInstance

/-- The pure collaborators handed to the router at construction plus the
static registry data: `normalize` and `textize` from the services
bundle, the cache directory, the SHA-1 hex digest (a fixed pure
function in Python), the filesystem-existence check at dispatch time,
and the raw `aliases`/`mappings` lists from which `Router.__init__`
builds its tables. -/
structure Env where
  normalize : String → String
  textize : String → String
  sha1hex : String → String
  cacheDir : String
  fsExists : String → Bool
  aliasesList : List (String × String)
  mappings : List (String × SvcClass)

/-- Association-list update with Python-dict semantics: replace the
binding if the key is present, append it otherwise. -/
def alistSet {β : Type} : List (String × β) → String → β → List (String × β)
  | [], k, v => [(k, v)]
  | (k1, v1) :: rest, k, v =>
      if k1 = k then (k, v) :: rest else (k1, v1) :: alistSet rest k v

/-- Association-list lookup (first binding wins; `alistSet`-built lists
have unique keys, matching Python dicts). -/
def lookupA {β : Type} : List (String × β) → String → Option β
  | [], _ => none
  | (k1, v1) :: rest, k => if k1 = k then some v1 else lookupA rest k

/-- Build a dict from a list of pairs, later entries overwriting earlier
ones — Python dict-comprehension semantics. -/
def dictOfList {β : Type} (l : List (String × β)) : List (String × β) :=
  l.foldl (fun m p => alistSet m p.1 p.2) []

/-- The alias table built in `Router.__init__`: both sides of every
alias pair normalized. -/
def Env.aliasTable (e : Env) : List (String × String) :=
  dictOfList (e.aliasesList.map (fun p => (e.normalize p.1, e.normalize p.2)))

/-- The static part of a `services.lookup` entry built in
`Router.__init__`: display name (`svc_class.NAME or svc_id`), traits
(`svc_class.TRAITS or []`), and the class itself (its constructor
outcome). -/
structure ServiceEntry where
  name : String
  traits : List String
  init : Option SvcInstance

/-- The `services.lookup` dict built in `Router.__init__`, keyed by
normalized service ID. -/
def Env.lookupTable (e : Env) : List (String × ServiceEntry) :=
  dictOfList (e.mappings.map (fun p =>
    (e.normalize p.1,
     { name := p.2.NAME.getD p.1,
       traits := p.2.TRAITS.getD [],
       init := p.2.init })))

/-- The mutable, lazily-populated part of a `services.lookup` entry:
the `'instance'` key (absent / `None` after a failed initialization /
a live object) and the memoized `'options'` key. -/
structure SvcState where
  inst : Option (Option SvcInstance)
  opts : Option (List SvcOption)

/-- The per-service mutable states, keyed by normalized service ID.  A
missing key models a registered service whose lazy keys have never been
touched. -/
def Svcs : Type := List (String × SvcState)

/-- The router's mutable state: the `_busy` list of in-flight cache
paths and the lazily-populated per-service dict entries. -/
structure RouterState where
  busy : List String
  svc : Svcs

/-- Read a service's mutable state (no lazy keys set yet if never
touched). -/
def getSvc (svcs : Svcs) (svcId : String) : SvcState :=
  (lookupA svcs svcId).getD { inst := none, opts := none }

/-- Write a service's mutable state. -/
def setSvc (svcs : Svcs) (svcId : String) (s : SvcState) : Svcs :=
  alistSet svcs svcId s

/-- `Router._path_cache`: join text, service ID, and the
sorted-and-serialized options with `/`, digest, and place
`{svc_id}-{digest}.mp3` in the cache directory.  `sorted` is Python's
sort on `(key, value)` tuples, embedded as insertion sort under
`pairLE`. -/
def path_cache (e : Env) (svcId text : String) (options : List (String × Val)) : String :=
  let sortedOpts := List.insertionSort pairLE options
  let serialized := String.intercalate ";"
    (sortedOpts.map (fun p => p.1 ++ "=" ++ valStr p.2))
  let hashInput := String.intercalate "/" [text, svcId, serialized]
  e.cacheDir ++ "/" ++ svcId ++ "-" ++ e.sha1hex hashInput ++ ".mp3"

/-- `Router._validate_text`: apply the bundle's `textize`; an empty
result raises `ValueError("The input text must be set.")`, embedded as
`Err.inputError`. -/
def validate_text (e : Env) (text : String) : Except Err String :=
  let t := e.textize text
  if t = "" then .error .inputError else .ok t

/-- `Router._load_service`: a no-op when the `'instance'` key is already
set (ready or unavailable); otherwise run the constructor, trapping any
exception by recording `None` (the terminal unavailable marker). -/
def load_service (entry : ServiceEntry) (s : SvcState) : SvcState :=
  if s.inst.isSome then s else { s with inst := some entry.init }

/-- The ID-resolution prefix of `Router._fetch_service`: normalize, then
follow the alias table if it has the ID. -/
def resolveId (e : Env) (svcId : String) : String :=
  let n := e.normalize svcId
  match lookupA e.aliasTable n with
  | some target => target
  | none => n

/-- `Router._fetch_service`: resolve the ID, look it up (a miss raises
`ValueError("There is no ... service")`), lazily initialize, and fail
with `EnvironmentError` when the instance is the unavailable marker. -/
def fetch_service (e : Env) (svcs : Svcs) (svcId : String) :
    Except Err (String × ServiceEntry × SvcInstance) × Svcs :=
  let nid := resolveId e svcId
  match lookupA e.lookupTable nid with
  | none => (.error (.unknownBackend nid), svcs)
  | some entry =>
    let s := load_service entry (getSvc svcs nid)
    let svcs1 := setSvc svcs nid s
    match s.inst with
    | some (some inst) => (.ok (nid, entry, inst), svcs1)
    | _ => (.error (.unavailable entry.name), svcs1)

/-- The assertions `Router._fetch_options` applies to one raw option
dict: `key` present and already normalized, `label` present, `values`
present and either a list (of any length) or a 2-3 element tuple, and
`transform` present. -/
def rawOptionOk (normalize : String → String) (o : RawOption) : Bool :=
  (match o.key with | some k => normalize k == k | none => false) &&
  o.label.isSome &&
  (match o.values with
   | some (.list _) => true
   | some (.tuple items) => items.length == 2 || items.length == 3
   | none => false) &&
  o.transform.isSome

/-- The post-processing `Router._fetch_options` applies to an
assertion-passing option: append `":"` to the label when missing and,
when a default exists and the domain is a list, annotate the matching
item's description with `" [default]"`.  The `getD` fallbacks are dead
when `rawOptionOk` holds. -/
def buildOption (o : RawOption) : SvcOption :=
  let lbl := o.label.getD ""
  let lbl := if lbl.endsWith ":" then lbl else lbl ++ ":"
  let vals := o.values.getD (.list [])
  let vals :=
    match o.default, vals with
    | some d, .list items =>
        Domain.list (items.map (fun item =>
          if item.1 ≠ d then item else (item.1, item.2 ++ " [default]")))
    | _, v => v
  { key := o.key.getD "", label := lbl, values := vals,
    transform := o.transform.getD some, default := o.default }

/-- The option-building loop of `Router._fetch_options`: process raw
options in order; the first assertion failure stops the loop, leaving
the already-processed prefix (the partially built list the Python code
has appended to `service['options']` so far) and a `false` flag. -/
def build_loop (normalize : String → String) : List RawOption → List SvcOption × Bool
  | [] => ([], true)
  | o :: rest =>
    if rawOptionOk normalize o then
      let (l, ok) := build_loop normalize rest
      (buildOption o :: l, ok)
    else ([], false)

/-- `Router._fetch_options`: fetch the service, and memoize the built
option schema on first access.  On an assertion failure the partial
list is still memoized (the Python code sets `service['options'] = []`
and appends before each assert can fire) and the `AssertionError`
propagates. -/
def fetch_options (e : Env) (svcs : Svcs) (svcId : String) :
    Except Err (String × ServiceEntry × SvcInstance × List SvcOption) × Svcs :=
  match fetch_service e svcs svcId with
  | (.error err, svcs1) => (.error err, svcs1)
  | (.ok (nid, entry, inst), svcs1) =>
    match (getSvc svcs1 nid).opts with
    | some lst => (.ok (nid, entry, inst, lst), svcs1)
    | none =>
      let (lst, ok) := build_loop e.normalize inst.rawOptions
      let svcs2 := setSvc svcs1 nid { getSvc svcs1 nid with opts := some lst }
      if ok then (.ok (nid, entry, inst, lst), svcs2)
      else (.error .assertionError, svcs2)

/-- One iteration of `Router._validate_options` for a key present in the
caller's map: transform (a `ValueError` is recorded as an
invalid-value problem), check the domain (out-of-range raises a
`ValueError` caught by the same handler; an enumerated-list miss
raises `StopIteration`), and only on success write the transformed
value back into the map. -/
def checkPresent (m : List (String × Val)) (o : SvcOption) (raw : Val) :
    List (String × Val) × Option Problem :=
  match o.transform raw with
  | none => (m, some (.invalidValue raw o.key))
  | some tv =>
    match o.values with
    | .tuple items =>
      let lo := items.getD 0 (.int 0)
      let hi := items.getD 1 (.int 0)
      if valLt tv lo || valLt hi tv then (m, some (.invalidValue raw o.key))
      else (alistSet m o.key tv, none)
    | .list items =>
      if items.any (fun item => item.1 == tv) then (alistSet m o.key tv, none)
      else (m, some (.notAnOption raw o.key))

/-- `Router._validate_options`: walk the declared options in order,
transforming present keys in place, substituting declared defaults for
absent keys, and recording a problem for absent keys without a
default.  Returns the updated map and the problem list. -/
def validate_options (svcOptions : List SvcOption) (m : List (String × Val)) :
    List (String × Val) × List Problem :=
  match svcOptions with
  | [] => (m, [])
  | o :: rest =>
    match lookupA m o.key with
    | some raw =>
      let (m1, prob) := checkPresent m o raw
      let (m2, probs) := validate_options rest m1
      (m2, prob.toList ++ probs)
    | none =>
      match o.default with
      | some d => validate_options rest (alistSet m o.key d)
      | none =>
        let (m2, probs) := validate_options rest m
        (m2, .required o.key :: probs)

/-- The dict comprehension at the top of `Router._validate_service`:
normalize the caller's option keys, keep only keys declared in the
schema, later entries overwriting earlier ones. -/
def normalized_filtered (e : Env) (keys : List String)
    (callerOpts : List (String × Val)) : List (String × Val) :=
  (callerOpts.map (fun p => (e.normalize p.1, p.2))).foldl
    (fun m p => if p.1 ∈ keys then alistSet m p.1 p.2 else m) []

/-- `Router._validate_service`: fetch the schema, normalize the caller's
option keys and drop unknown ones, validate, and raise a `ValueError`
joining all problems when any were recorded. -/
def validate_service (e : Env) (svcs : Svcs) (svcId : String)
    (callerOpts : List (String × Val)) :
    Except Err (String × ServiceEntry × SvcInstance × List (String × Val)) × Svcs :=
  match fetch_options e svcs svcId with
  | (.error err, svcs1) => (.error err, svcs1)
  | (.ok (nid, entry, inst, svcOptions), svcs1) =>
    let filtered := normalized_filtered e (svcOptions.map (fun o => o.key)) callerOpts
    let (opts, problems) := validate_options svcOptions filtered
    if problems.isEmpty then (.ok (nid, entry, inst, opts), svcs1)
    else (.error (.optionError problems), svcs1)

/-- `Router._validate_path`: compute the cache path and raise
`BusyError` when it is already in the `_busy` list. -/
def validate_path (e : Env) (busy : List String) (svcId text : String)
    (options : List (String × Val)) : Except Err String :=
  if path_cache e svcId text options ∈ busy then
    .error (.busyError (path_cache e svcId text options))
  else
    .ok (path_cache e svcId text options)

/-- The shape of the `callbacks` dict that matters to control flow:
whether the optional `'done'` callback was supplied, and whether the
required `'fail'` callback returns a truthy value — the Python
completion lambda evaluates
`exception and callbacks['fail'](exception) or callbacks['okay'](path)`,
so the truthiness of `fail`'s return value decides whether `okay` also
fires. -/
structure Callbacks where
  hasDone : Bool
  failReturnsTruthy : Bool
deriving DecidableEq

/-- A callback invocation observable from a dispatch. -/
inductive Event where
  | done
  | okay (path : String)
  | fail (e : Err)
deriving DecidableEq

/-- `if 'done' in callbacks: callbacks['done']()`. -/
def done_events (cb : Callbacks) : List Event :=
  if cb.hasDone then [.done] else []

/-- The closure captured for the worker pool: the arguments of the
pending `service['instance'].run(text, options, path)` call. -/
structure Job where
  svcId : String
  text : String
  options : List (String × Val)
  path : String

/-- `Router.__call__`, the dispatch operation: validate text, service
and path, check the filesystem, and either report a validation failure
(`done` then `fail`), report a cache hit (`done` then `okay`), or
append the path to `_busy` and submit a `Job` to the worker pool
(no callback fires yet).  Returns the synchronously fired events, the
new router state, and the submitted job if any. -/
def dispatch (e : Env) (st : RouterState) (svcId text : String)
    (callerOpts : List (String × Val)) (cb : Callbacks) :
    List Event × RouterState × Option Job :=
  match validate_text e text with
  | .error err => (done_events cb ++ [.fail err], st, none)
  | .ok t =>
    match validate_service e st.svc svcId callerOpts with
    | (.error err, svcs1) => (done_events cb ++ [.fail err], ⟨st.busy, svcs1⟩, none)
    | (.ok (nid, _entry, _inst, opts), svcs1) =>
      match validate_path e st.busy nid t opts with
      | .error err => (done_events cb ++ [.fail err], ⟨st.busy, svcs1⟩, none)
      | .ok path =>
        if e.fsExists path then
          (done_events cb ++ [.okay path], ⟨st.busy, svcs1⟩, none)
        else
          ([], ⟨st.busy ++ [path], svcs1⟩, some ⟨nid, t, opts, path⟩)

/-- The completion lambda `Router.__call__` hands to `_Pool.spawn`,
invoked with the worker's outcome (`none` when `run` returned, `some`
the exception it raised): remove the path from `_busy`, call `done` if
supplied, then evaluate
`exception and callbacks['fail'](exception) or callbacks['okay'](path)`
— faithfully including that when `fail` returns a falsy value (the
normal case for a callback returning `None`), `okay` fires as well. -/
def completion (cb : Callbacks) (st : RouterState) (path : String)
    (exc : Option Err) : List Event × RouterState :=
  let st1 : RouterState := ⟨st.busy.erase path, st.svc⟩
  let evs := done_events cb ++
    (match exc with
     | some err => if cb.failReturnsTruthy then [.fail err] else [.fail err, .okay path]
     | none => [.okay path])
  (evs, st1)

/-- The full observable lifecycle of one dispatch: the synchronous
events, then — when an execution was submitted — the completion
callback's events for the worker outcome `exc`. -/
def dispatchTrace (e : Env) (st : RouterState) (svcId text : String)
    (callerOpts : List (String × Val)) (cb : Callbacks) (exc : Option Err) :
    List Event × RouterState :=
  match dispatch e st svcId text callerOpts cb with
  | (evs, st1, none) => (evs, st1)
  | (evs, st1, some job) =>
    let (cevs, st2) := completion cb st1 job.path exc
    (evs ++ cevs, st2)

/-! Concrete instances used by the witness and counterexample theorems:
a tiny registry with one working service `"a"` (one enumerated option
`"voice"` with default `"en"`, one required range option `"rate"`) and
one service `"bad"` whose constructor raises. -/

/-- A transform modelling `str`: accepts any value as a string. -/
def strTransform : Val → Option Val
  | .str s => some (.str s)
  | .int n => some (.str (toString n))

/-- A transform modelling `int` on already-numeric input: raises
`ValueError` (returns `none`) on strings. -/
def intTransform : Val → Option Val
  | .int n => some (.int n)
  | .str _ => none

/-- The enumerated `"voice"` option of the test service, with a
default. -/
def rawVoice : RawOption :=
  { key := some "voice", label := some "Voice",
    values := some (.list [(.str "en", "English"), (.str "fr", "French")]),
    transform := some strTransform, default := some (.str "en") }

/-- The required numeric-range `"rate"` option of the test service. -/
def rawRate : RawOption :=
  { key := some "rate", label := some "Rate:",
    values := some (.tuple [.int 0, .int 10]),
    transform := some intTransform, default := none }

/-- The `options()` result of the test service `"a"`. -/
def rawOptsA : List RawOption := [rawVoice, rawRate]

/-- The live instance of the test service `"a"`. -/
def instA : SvcInstance := { rawOptions := rawOptsA }

/-- The test environment: identity normalization and textize-strips-
spaces, a constant digest stub, cold filesystem, service `"a"` plus an
alias `"alpha"`, and a service `"bad"` whose constructor raises. -/
def envA : Env :=
  { normalize := fun s => s
  , textize := fun s => String.mk (s.data.filter (fun c => c ≠ ' '))
  , sha1hex := fun _ => "h"
  , cacheDir := "cache"
  , fsExists := fun _ => false
  , aliasesList := [("alpha", "a")]
  , mappings :=
      [ ("a", { NAME := some "Acme", TRAITS := some ["net"], init := some instA })
      , ("bad", { NAME := some "Bad", TRAITS := some [], init := none }) ] }

/-- `envA` with the filesystem reporting every path as present. -/
def envHit : Env := { envA with fsExists := fun _ => true }

/-- A fresh router state: nothing in flight, no service touched. -/
def st0 : RouterState := { busy := [], svc := [] }

/-- Callbacks with `done` supplied and `fail` returning `None`. -/
def cbD : Callbacks := { hasDone := true, failReturnsTruthy := false }

/-- Callbacks without `done`, `fail` returning `None`. -/
def cbN : Callbacks := { hasDone := false, failReturnsTruthy := false }

/-- The registry entry `Router.__init__` builds for service `"a"`. -/
def entryA : ServiceEntry := { name := "Acme", traits := ["net"], init := some instA }

/-- Service `"a"`'s schema as `Router._fetch_options` builds it. -/
def builtA : List SvcOption := (build_loop envA.normalize instA.rawOptions).1

/-- The service states after service `"a"` has been initialized and its
schema memoized. -/
def svcsA : Svcs := [("a", { inst := some (some instA), opts := some builtA })]

/-- The cache path every request in the test environment resolves to
(the digest is stubbed to `"h"`). -/
def pathA : String := "cache/a-h.mp3"

/-- The router state after a first dispatch to `"a"` has submitted an
execution: `pathA` in flight, `"a"` loaded and memoized. -/
def st1A : RouterState := { busy := [pathA], svc := svcsA }

/-- The job a first cold-cache dispatch to `"a"` submits. -/
def jobA : Job :=
  { svcId := "a", text := "hello",
    options := [("rate", .int 5), ("voice", .str "en")], path := pathA }

/-- A router state with `pathA` in flight but no service touched. -/
def stBusy : RouterState := { busy := [pathA], svc := [] }

/-- The registry entry for the broken service `"bad"`. -/
def entryBad : ServiceEntry := { name := "Bad", traits := [], init := none }

/-- The service states after `"bad"`'s failed initialization has been
recorded as terminal. -/
def svcsBad : Svcs := [("bad", { inst := some none, opts := none })]

/-- A raw option whose domain is a single-item list: it violates the
spec's "list of at least two items" reading but passes every assertion
in `Router._fetch_options`. -/
def singleOpt : RawOption :=
  { key := some "k", label := some "Level",
    values := some (.list [(.str "x", "X")]),
    transform := some strTransform, default := none }

/-- The live instance of the test service `"s"` whose schema is
`[singleOpt]`. -/
def instS : SvcInstance := { rawOptions := [singleOpt] }

/-- The registry entry for the test service `"s"`. -/
def entryS : ServiceEntry := { name := "S", traits := [], init := some instS }

/-- A test environment whose only service `"s"` declares the
single-item-list schema. -/
def envC : Env :=
  { envA with
    aliasesList := []
    mappings := [("s", { NAME := some "S", TRAITS := some [], init := some instS })] }

/-- Modelled from the spec: the schema-validity condition exactly as
claim C9 words it — every option declares a key, label, domain and
transform, and the domain is "a list of at least two items or a
numeric range" (the code represents a numeric range as a bounds
tuple). -/
def claimSchemaOk (o : RawOption) : Prop :=
  o.key.isSome = true ∧ o.label.isSome = true ∧ o.transform.isSome = true ∧
  ((∃ items, o.values = some (.list items) ∧ 2 ≤ items.length) ∨
   (∃ items, o.values = some (.tuple items)))


/-! ## Order lemmas for the options sort -/

theorem valLe_total (a b : Val) : valLe a b = true ∨ valLe b a = true := by
  cases a <;> cases b
  case str.str s t =>
    simp only [valLe, decide_eq_true_eq]; exact le_total s t
  case int.int m n =>
    simp only [valLe, decide_eq_true_eq]; exact le_total m n
  case int.str => exact Or.inl rfl
  case str.int => exact Or.inr rfl

theorem valLe_trans {a b c : Val} (h1 : valLe a b = true) (h2 : valLe b c = true) :
    valLe a c = true := by
  cases a <;> cases b <;> cases c <;>
    simp only [valLe, decide_eq_true_eq] at h1 h2 ⊢ <;> try trivial
  case str.str.str => exact le_trans h1 h2
  case int.int.int => exact le_trans h1 h2

theorem valLe_antisymm {a b : Val} (h1 : valLe a b = true) (h2 : valLe b a = true) :
    a = b := by
  cases a <;> cases b <;>
    simp only [valLe, decide_eq_true_eq] at h1 h2 <;> try trivial
  case str.str => exact congrArg Val.str (le_antisymm h1 h2)
  case int.int => exact congrArg Val.int (le_antisymm h1 h2)

instance : IsTotal (String × Val) pairLE where
  total a b := by
    rcases lt_trichotomy a.1 b.1 with h | h | h
    · exact Or.inl (Or.inl h)
    · rcases valLe_total a.2 b.2 with hv | hv
      · exact Or.inl (Or.inr ⟨h, hv⟩)
      · exact Or.inr (Or.inr ⟨h.symm, hv⟩)
    · exact Or.inr (Or.inl h)

instance : IsTrans (String × Val) pairLE where
  trans a b c h1 h2 := by
    rcases h1 with h1 | ⟨h1e, h1v⟩
    · rcases h2 with h2 | ⟨h2e, _⟩
      · exact Or.inl (lt_trans h1 h2)
      · exact Or.inl (h2e ▸ h1)
    · rcases h2 with h2 | ⟨h2e, h2v⟩
      · exact Or.inl (h1e ▸ h2)
      · exact Or.inr ⟨h1e.trans h2e, valLe_trans h1v h2v⟩

instance : IsAntisymm (String × Val) pairLE where
  antisymm a b h1 h2 := by
    rcases h1 with h1 | ⟨h1e, h1v⟩
    · rcases h2 with h2 | ⟨h2e, _⟩
      · exact absurd h2 (lt_asymm h1)
      · exact absurd h1 (h2e ▸ lt_irrefl _)
    · rcases h2 with h2 | ⟨_, h2v⟩
      · exact absurd h2 (h1e ▸ lt_irrefl _)
      · exact Prod.ext h1e (valLe_antisymm h1v h2v)

/-! ## Association-list lemmas -/

theorem lookupA_alistSet_self {β : Type} (m : List (String × β)) (k : String) (v : β) :
    lookupA (alistSet m k v) k = some v := by
  induction m with
  | nil => simp [alistSet, lookupA]
  | cons p rest ih =>
    obtain ⟨k1, v1⟩ := p
    by_cases h : k1 = k
    · simp [alistSet, h, lookupA]
    · simp [alistSet, h, lookupA, ih]

theorem lookupA_alistSet_ne {β : Type} (m : List (String × β)) {k k1 : String} (v : β)
    (h : k1 ≠ k) : lookupA (alistSet m k1 v) k = lookupA m k := by
  induction m with
  | nil => simp [alistSet, lookupA, h]
  | cons p rest ih =>
    obtain ⟨k2, v2⟩ := p
    by_cases h2 : k2 = k1
    · simp [alistSet, h2, lookupA, h]
    · simp [alistSet, h2, lookupA, ih]

theorem alistSet_of_lookupA {β : Type} (m : List (String × β)) {k : String} {v : β}
    (h : lookupA m k = some v) : alistSet m k v = m := by
  induction m with
  | nil => simp [lookupA] at h
  | cons p rest ih =>
    obtain ⟨k1, v1⟩ := p
    by_cases h1 : k1 = k
    · subst h1
      have hv : v1 = v := by simpa [lookupA] using h
      subst hv
      simp [alistSet]
    · simp only [lookupA, if_neg h1] at h
      simp [alistSet, h1, ih h]

theorem getSvc_setSvc_self (svcs : Svcs) (k : String) (s : SvcState) :
    getSvc (setSvc svcs k s) k = s := by
  simp [getSvc, setSvc, lookupA_alistSet_self]

theorem lookupA_setSvc_self (svcs : Svcs) (k : String) (s : SvcState) :
    lookupA (setSvc svcs k s) k = some s :=
  lookupA_alistSet_self svcs k s

theorem setSvc_of_lookupA (svcs : Svcs) {k : String} {s : SvcState}
    (h : lookupA svcs k = some s) : setSvc svcs k s = svcs :=
  alistSet_of_lookupA svcs h

/-! ## C4 — cache path determinism -/

/-- C4.  The cache path resolver is pure and deterministic: it is a
function of the environment's cache directory and digest and of
`(svcId, text, options)` alone (no other state appears in
`path_cache`), and reordering the entries of the options map — any
permutation of the key/value pairs — leaves the resolved path
unchanged, because `Router._path_cache` serializes
`sorted(options.items())`. -/
theorem path_cache_deterministic (e : Env) (svcId text : String)
    (o1 o2 : List (String × Val)) (h : o1.Perm o2) :
    path_cache e svcId text o1 = path_cache e svcId text o2 := by
  unfold path_cache
  have hs : List.insertionSort pairLE o1 = List.insertionSort pairLE o2 :=
    List.eq_of_perm_of_sorted
      ((List.perm_insertionSort pairLE o1).trans
        (h.trans (List.perm_insertionSort pairLE o2).symm))
      (List.sorted_insertionSort pairLE o1)
      (List.sorted_insertionSort pairLE o2)
  rw [hs]

/-- Witness for C4: the two insertion orders of a concrete two-key
options map resolve to the identical path. -/
theorem path_cache_deterministic_witness :
    [("k", Val.str "1"), ("b", Val.int 2)].Perm [("b", Val.int 2), ("k", Val.str "1")] ∧
    path_cache envA "a" "x" [("k", Val.str "1"), ("b", Val.int 2)]
      = path_cache envA "a" "x" [("b", Val.int 2), ("k", Val.str "1")] :=
  ⟨by decide, path_cache_deterministic envA "a" "x" _ _ (by decide)⟩

/-! ## C6 — empty text fails first -/

/-- C6.  For every text input that `textize` normalizes to the empty
string, dispatch reports `InputError` through the failure continuation
(the `done` notification first when supplied) and returns — the
conclusion holds for every router state and every environment with the
same `textize`, and returns that state unchanged, so no registry
lookup, no backend initialization, no in-flight-set change, and no
filesystem access can have occurred; no exception escapes
(`dispatch` is a total function into events). -/
theorem dispatch_empty_text (e : Env) (st : RouterState) (svcId text : String)
    (copts : List (String × Val)) (cb : Callbacks)
    (h : e.textize text = "") :
    dispatch e st svcId text copts cb
      = (done_events cb ++ [.fail .inputError], st, none) := by
  unfold dispatch validate_text
  rw [h]
  simp

/-- Witness for C6: a whitespace-only input in the test environment. -/
theorem dispatch_empty_text_witness :
    envA.textize "   " = "" ∧
    dispatch envA st0 "a" "   " [] cbD
      = (done_events cbD ++ [.fail .inputError], st0, none) :=
  ⟨by decide, dispatch_empty_text envA st0 "a" "   " [] cbD (by decide)⟩

/-! ## Dispatch inversion lemmas -/

theorem validate_path_ok {e : Env} {busy : List String} {svcId text : String}
    {opts : List (String × Val)} {path : String}
    (h : validate_path e busy svcId text opts = .ok path) :
    path = path_cache e svcId text opts ∧ path ∉ busy := by
  unfold validate_path at h
  split at h
  · exact absurd h (by simp)
  · rename_i hmem
    cases h
    exact ⟨rfl, hmem⟩

theorem dispatch_eq_text_error {e : Env} {text : String} {err : Err}
    (st : RouterState) (svcId : String) (copts : List (String × Val))
    (cb : Callbacks) (hvt : validate_text e text = .error err) :
    dispatch e st svcId text copts cb
      = (done_events cb ++ [.fail err], st, none) := by
  unfold dispatch
  simp only [hvt]

theorem dispatch_eq_svc_error {e : Env} {st : RouterState} {svcId text : String}
    {copts : List (String × Val)} {t : String} {err : Err} {svcs1 : Svcs}
    (cb : Callbacks) (hvt : validate_text e text = .ok t)
    (hval : validate_service e st.svc svcId copts = (.error err, svcs1)) :
    dispatch e st svcId text copts cb
      = (done_events cb ++ [.fail err], ⟨st.busy, svcs1⟩, none) := by
  unfold dispatch
  simp only [hvt, hval]

theorem dispatch_eq_path_busy {e : Env} {st : RouterState} {svcId text : String}
    {copts : List (String × Val)} {t : String} {nid : String}
    {entry : ServiceEntry} {inst : SvcInstance} {opts : List (String × Val)}
    {svcs1 : Svcs} {err : Err}
    (cb : Callbacks) (hvt : validate_text e text = .ok t)
    (hval : validate_service e st.svc svcId copts = (.ok (nid, entry, inst, opts), svcs1))
    (hvp : validate_path e st.busy nid t opts = .error err) :
    dispatch e st svcId text copts cb
      = (done_events cb ++ [.fail err], ⟨st.busy, svcs1⟩, none) := by
  unfold dispatch
  simp only [hvt, hval, hvp]

theorem dispatch_eq_cache_hit {e : Env} {st : RouterState} {svcId text : String}
    {copts : List (String × Val)} {t : String} {nid : String}
    {entry : ServiceEntry} {inst : SvcInstance} {opts : List (String × Val)}
    {svcs1 : Svcs} {path : String}
    (cb : Callbacks) (hvt : validate_text e text = .ok t)
    (hval : validate_service e st.svc svcId copts = (.ok (nid, entry, inst, opts), svcs1))
    (hvp : validate_path e st.busy nid t opts = .ok path)
    (hfs : e.fsExists path = true) :
    dispatch e st svcId text copts cb
      = (done_events cb ++ [.okay path], ⟨st.busy, svcs1⟩, none) := by
  unfold dispatch
  simp only [hvt, hval, hvp, hfs, if_true]

theorem dispatch_eq_spawn {e : Env} {st : RouterState} {svcId text : String}
    {copts : List (String × Val)} {t : String} {nid : String}
    {entry : ServiceEntry} {inst : SvcInstance} {opts : List (String × Val)}
    {svcs1 : Svcs} {path : String}
    (cb : Callbacks) (hvt : validate_text e text = .ok t)
    (hval : validate_service e st.svc svcId copts = (.ok (nid, entry, inst, opts), svcs1))
    (hvp : validate_path e st.busy nid t opts = .ok path)
    (hfs : e.fsExists path = false) :
    dispatch e st svcId text copts cb
      = ([], ⟨st.busy ++ [path], svcs1⟩, some ⟨nid, t, opts, path⟩) := by
  unfold dispatch
  simp only [hvt, hval, hvp, hfs, Bool.false_eq_true, if_false]

theorem validate_path_mem {e : Env} {busy : List String} {svcId text : String}
    {opts : List (String × Val)}
    (h : path_cache e svcId text opts ∈ busy) :
    validate_path e busy svcId text opts
      = .error (.busyError (path_cache e svcId text opts)) := by
  unfold validate_path
  rw [if_pos h]

theorem dispatch_spawn_inv {e : Env} {st : RouterState} {svcId text : String}
    {copts : List (String × Val)} {cb : Callbacks} {evs : List Event}
    {st1 : RouterState} {job : Job}
    (h : dispatch e st svcId text copts cb = (evs, st1, some job)) :
    ∃ t nid entry inst opts svcs1,
      validate_text e text = .ok t ∧
      validate_service e st.svc svcId copts = (.ok (nid, entry, inst, opts), svcs1) ∧
      job = ⟨nid, t, opts, path_cache e nid t opts⟩ ∧
      job.path ∉ st.busy ∧ e.fsExists job.path = false ∧
      evs = [] ∧ st1 = ⟨st.busy ++ [job.path], svcs1⟩ := by
  cases hvt : validate_text e text with
  | error err => rw [dispatch_eq_text_error st svcId copts cb hvt] at h; simp at h
  | ok t =>
  cases hval : validate_service e st.svc svcId copts with
  | mk res svcs1 =>
  cases res with
  | error err => rw [dispatch_eq_svc_error cb hvt hval] at h; simp at h
  | ok r =>
  obtain ⟨nid, entry, inst, opts⟩ := r
  cases hvp : validate_path e st.busy nid t opts with
  | error err => rw [dispatch_eq_path_busy cb hvt hval hvp] at h; simp at h
  | ok path =>
  obtain ⟨hpath, hmem⟩ := validate_path_ok hvp
  cases hfs : e.fsExists path with
  | true => rw [dispatch_eq_cache_hit cb hvt hval hvp hfs] at h; simp at h
  | false =>
    rw [dispatch_eq_spawn cb hvt hval hvp hfs] at h
    simp only [Prod.mk.injEq, Option.some.injEq] at h
    obtain ⟨h1, h2, h3⟩ := h
    subst h1; subst h2
    obtain rfl := h3.symm
    subst hpath
    exact ⟨t, nid, entry, inst, opts, svcs1, rfl, rfl, rfl, hmem, hfs, rfl, rfl⟩

theorem dispatch_none_busy {e : Env} {st : RouterState} {svcId text : String}
    {copts : List (String × Val)} {cb : Callbacks} {evs : List Event}
    {st1 : RouterState}
    (h : dispatch e st svcId text copts cb = (evs, st1, none)) :
    st1.busy = st.busy := by
  cases hvt : validate_text e text with
  | error err =>
    rw [dispatch_eq_text_error st svcId copts cb hvt] at h
    simp only [Prod.mk.injEq] at h
    obtain ⟨_, h2, _⟩ := h; subst h2; rfl
  | ok t =>
  cases hval : validate_service e st.svc svcId copts with
  | mk res svcs1 =>
  cases res with
  | error err =>
    rw [dispatch_eq_svc_error cb hvt hval] at h
    simp only [Prod.mk.injEq] at h
    obtain ⟨_, h2, _⟩ := h; subst h2; rfl
  | ok r =>
  obtain ⟨nid, entry, inst, opts⟩ := r
  cases hvp : validate_path e st.busy nid t opts with
  | error err =>
    rw [dispatch_eq_path_busy cb hvt hval hvp] at h
    simp only [Prod.mk.injEq] at h
    obtain ⟨_, h2, _⟩ := h; subst h2; rfl
  | ok path =>
  cases hfs : e.fsExists path with
  | true =>
    rw [dispatch_eq_cache_hit cb hvt hval hvp hfs] at h
    simp only [Prod.mk.injEq] at h
    obtain ⟨_, h2, _⟩ := h; subst h2; rfl
  | false =>
    rw [dispatch_eq_spawn cb hvt hval hvp hfs] at h
    simp at h

/-! ## C10 — failure atomicity of the in-flight set -/

/-- C10.  Failure atomicity of the in-flight set: whenever a dispatch
reports any failure through the failure continuation (all `fail` events
are synchronous, fired by the validation phase), `_busy` is exactly the
same after the call as before it; a path is appended to `_busy` exactly
on the branch that submits an execution to the worker pool, and only
the submitted job's path is appended. -/
theorem dispatch_failure_atomic (e : Env) (st : RouterState) (svcId text : String)
    (copts : List (String × Val)) (cb : Callbacks) (evs : List Event)
    (st1 : RouterState) (j : Option Job)
    (h : dispatch e st svcId text copts cb = (evs, st1, j)) :
    ((∃ err, Event.fail err ∈ evs) → st1.busy = st.busy) ∧
    (∀ job, j = some job → st1.busy = st.busy ++ [job.path] ∧ evs = []) ∧
    (j = none → st1.busy = st.busy) := by
  refine ⟨?_, ?_, ?_⟩
  · intro hfail
    cases j with
    | none => exact dispatch_none_busy h
    | some job =>
      obtain ⟨t, nid, entry, inst, opts, svcs1, _, _, _, _, _, hevs, hst1⟩ :=
        dispatch_spawn_inv h
      obtain ⟨err, hmem⟩ := hfail
      rw [hevs] at hmem
      simp at hmem
  · intro job hj
    subst hj
    obtain ⟨t, nid, entry, inst, opts, svcs1, _, _, _, _, _, hevs, hst1⟩ :=
      dispatch_spawn_inv h
    subst hst1
    exact ⟨rfl, hevs⟩
  · intro hj
    subst hj
    exact dispatch_none_busy h

/-- Witness for C10: a concrete dispatch that fails validation (missing
required option) while `pathA` is in flight leaves the in-flight set
exactly as it was. -/
theorem dispatch_failure_atomic_witness :
    (RouterState.mk [pathA] svcsA).busy = stBusy.busy :=
  (dispatch_failure_atomic envA stBusy "a" "x" [] cbD
      [.done, .fail (.optionError [.required "rate"])] ⟨[pathA], svcsA⟩ none rfl).1
    ⟨.optionError [.required "rate"], by decide⟩

/-! ## C5 — the optional done continuation fires exactly once, first -/

/-- C5.  Completion ordering: when the caller supplies the optional
`done` callback, the full observable trace of a dispatch — for every
outcome: validation failure, cache hit, execution success or execution
failure — contains exactly one `done` event, and that event is the
very first callback fired, hence strictly before the success/failure
callback. -/
theorem dispatch_done_exactly_once (e : Env) (st : RouterState) (svcId text : String)
    (copts : List (String × Val)) (cb : Callbacks) (exc : Option Err)
    (h : cb.hasDone = true) :
    (dispatchTrace e st svcId text copts cb exc).1.count Event.done = 1 ∧
    (dispatchTrace e st svcId text copts cb exc).1.head? = some Event.done := by
  unfold dispatchTrace
  cases hvt : validate_text e text with
  | error err =>
    rw [dispatch_eq_text_error st svcId copts cb hvt]
    simp [done_events, h]
  | ok t =>
  cases hval : validate_service e st.svc svcId copts with
  | mk res svcs1 =>
  cases res with
  | error err =>
    rw [dispatch_eq_svc_error cb hvt hval]
    simp [done_events, h]
  | ok r =>
  obtain ⟨nid, entry, inst, opts⟩ := r
  cases hvp : validate_path e st.busy nid t opts with
  | error err =>
    rw [dispatch_eq_path_busy cb hvt hval hvp]
    simp [done_events, h]
  | ok path =>
  cases hfs : e.fsExists path with
  | true =>
    rw [dispatch_eq_cache_hit cb hvt hval hvp hfs]
    simp [done_events, h]
  | false =>
    rw [dispatch_eq_spawn cb hvt hval hvp hfs]
    unfold completion
    cases exc with
    | none => simp [done_events, h]
    | some err =>
      cases hft : cb.failReturnsTruthy <;> simp [done_events, h, hft]

/-- Witness for C5: the full trace of a concrete dispatch whose
execution fails contains `done` exactly once and first. -/
theorem dispatch_done_exactly_once_witness :
    cbD.hasDone = true ∧
    ((dispatchTrace envA st0 "a" "hello" [("rate", Val.int 5)] cbD
        (some .execError)).1.count Event.done = 1 ∧
     (dispatchTrace envA st0 "a" "hello" [("rate", Val.int 5)] cbD
        (some .execError)).1.head? = some Event.done) :=
  ⟨rfl, dispatch_done_exactly_once envA st0 "a" "hello" [("rate", Val.int 5)] cbD
      (some .execError) rfl⟩

/-! ## C2 — exactly one of success/failure: refuted by the code -/

/-- C2 (code bug).  The claim "exactly one of the success and failure
continuations fires — on an execution error only failure fires" is
violated by `Router.__call__`'s completion lambda: it evaluates
`exception and callbacks['fail'](exception) or callbacks['okay'](path)`,
so when `run` raises and the `fail` callback returns `None` (as the
add-on's real callbacks do), `okay` fires as well.  This theorem
evaluates the model at such an input: the trace ends
`fail execError` **followed by** `okay path` — both continuations
fire. -/
theorem dispatch_exec_failure_fires_both :
    (dispatchTrace envA st0 "a" "hello" [("rate", Val.int 5)] cbD
        (some .execError)).1
      = [.done, .fail .execError, .okay pathA] := by decide

/-! ## C3 — cache-hit law -/

/-- C3 counterexample.  The claim says the disk-existence check takes
effect before the in-flight membership check, so that success fires
whenever the resolved path exists on disk.  In the code
`_validate_path` raises `BusyError` *before* `os.path.exists` is
consulted: at a concrete input whose resolved path both exists on disk
and is in `_busy`, the dispatch fires the failure continuation with
`BusyError` and never fires success. -/
theorem cache_hit_claim_false :
    envHit.fsExists pathA = true ∧
    (dispatch envHit stBusy "a" "hello" [("rate", Val.int 5)] cbN).1
      = [.fail (.busyError pathA)] :=
  ⟨rfl, by decide⟩

/-- C3 (amended).  Cache-hit law as the code implements it: the
in-flight membership check precedes the disk check.  For a dispatch
that passes text/service validation, (i) when the resolved path is not
in flight and exists on disk, the backend's `run` is never invoked (no
job is submitted), success fires immediately with that path, and the
in-flight set is not modified; (ii) when the resolved path is in
flight, the dispatch fails with `BusyError` even if the path exists on
disk. -/
theorem cache_hit_amended (e : Env) (st : RouterState) (svcId text : String)
    (copts : List (String × Val)) (cb : Callbacks) (t : String)
    (nid : String) (entry : ServiceEntry) (inst : SvcInstance)
    (opts : List (String × Val)) (svcs1 : Svcs)
    (hvt : validate_text e text = .ok t)
    (hval : validate_service e st.svc svcId copts = (.ok (nid, entry, inst, opts), svcs1)) :
    (path_cache e nid t opts ∉ st.busy → e.fsExists (path_cache e nid t opts) = true →
      dispatch e st svcId text copts cb
        = (done_events cb ++ [.okay (path_cache e nid t opts)], ⟨st.busy, svcs1⟩, none)) ∧
    (path_cache e nid t opts ∈ st.busy →
      dispatch e st svcId text copts cb
        = (done_events cb ++ [.fail (.busyError (path_cache e nid t opts))],
           ⟨st.busy, svcs1⟩, none)) := by
  constructor
  · intro hmem hfs
    have hvp : validate_path e st.busy nid t opts = .ok (path_cache e nid t opts) := by
      unfold validate_path
      rw [if_neg hmem]
    exact dispatch_eq_cache_hit cb hvt hval hvp hfs
  · intro hmem
    exact dispatch_eq_path_busy cb hvt hval (validate_path_mem hmem)

/-- Witness for C3 (amended): a concrete warm-cache dispatch signals
success immediately, submits no execution, and leaves the in-flight
set untouched. -/
theorem cache_hit_amended_witness :
    dispatch envHit st0 "a" "hello" [("rate", Val.int 5)] cbN
      = (done_events cbN ++
          [.okay (path_cache envHit "a" "hello" [("rate", Val.int 5), ("voice", Val.str "en")])],
         ⟨st0.busy, svcsA⟩, none) :=
  (cache_hit_amended envHit st0 "a" "hello" [("rate", Val.int 5)] cbN "hello"
      "a" entryA instA [("rate", Val.int 5), ("voice", Val.str "en")] svcsA
      rfl rfl).1 (by decide) rfl

/-! ## C7 — terminal unavailable marker, no re-initialization -/

/-- C7.  Registry initialization is one-shot and failure is terminal:
(i) a failed constructor is trapped inside `_load_service` — it never
propagates; the `'instance'` key is set to the terminal unavailable
marker (`None`); (ii) once any initialization attempt has completed —
success or failure, i.e. the `'instance'` key is set — `_load_service`
is a no-op for the process lifetime, for every service; (iii) every
later lookup of the unavailable backend fails with the
`EnvironmentError` (`UnavailableError`) carrying the service's display
name, leaving the registry state unchanged. -/
theorem registry_unavailable_terminal (e : Env) (svcId nid : String)
    (entry : ServiceEntry) (s : SvcState)
    (hres : resolveId e svcId = nid)
    (hent : lookupA e.lookupTable nid = some entry)
    (hinit : entry.init = none)
    (hs : s.inst = none) :
    (load_service entry s).inst = some none ∧
    (∀ (entry2 : ServiceEntry) (s2 : SvcState), s2.inst.isSome = true →
        load_service entry2 s2 = s2) ∧
    (∀ svcs : Svcs, lookupA svcs nid = some (load_service entry s) →
        fetch_service e svcs svcId = (.error (.unavailable entry.name), svcs)) := by
  have hload : (load_service entry s).inst = some none := by
    unfold load_service
    rw [hs]
    simp [hinit]
  have hnoop : ∀ (entry2 : ServiceEntry) (s2 : SvcState), s2.inst.isSome = true →
      load_service entry2 s2 = s2 := by
    intro entry2 s2 h2
    unfold load_service
    rw [if_pos h2]
  refine ⟨hload, hnoop, ?_⟩
  intro svcs hlook
  have hgs : getSvc svcs nid = load_service entry s := by
    simp [getSvc, hlook]
  have hl2 : load_service entry (load_service entry s) = load_service entry s :=
    hnoop entry _ (by rw [hload]; rfl)
  simp only [fetch_service, hres, hent, hgs, hl2, hload]
  rw [setSvc_of_lookupA svcs hlook]

/-- Witness for C7: the broken test service `"bad"`: its failed
initialization is recorded as the terminal `None` marker and a later
fetch reports it unavailable without touching the registry state. -/
theorem registry_unavailable_terminal_witness :
    (load_service entryBad ⟨none, none⟩).inst = some none ∧
    fetch_service envA svcsBad "bad" = (.error (.unavailable "Bad"), svcsBad) :=
  ⟨(registry_unavailable_terminal envA "bad" "bad" entryBad ⟨none, none⟩
      rfl rfl rfl rfl).1,
   (registry_unavailable_terminal envA "bad" "bad" entryBad ⟨none, none⟩
      rfl rfl rfl rfl).2.2 svcsBad rfl⟩

/-! ## C9 — option schema validation -/

theorem rawOptionOk_iff (nrm : String → String) (o : RawOption) :
    rawOptionOk nrm o = true ↔
      (∃ k, o.key = some k ∧ nrm k = k) ∧ o.label.isSome = true ∧
      o.transform.isSome = true ∧
      ((∃ items, o.values = some (.list items)) ∨
       (∃ items, o.values = some (.tuple items) ∧
          (items.length = 2 ∨ items.length = 3))) := by
  unfold rawOptionOk
  constructor
  · intro h
    simp only [Bool.and_eq_true] at h
    obtain ⟨⟨⟨hk, hl⟩, hv⟩, ht⟩ := h
    refine ⟨?_, hl, ht, ?_⟩
    · cases hko : o.key with
      | none => rw [hko] at hk; simp at hk
      | some k => rw [hko] at hk; exact ⟨k, rfl, by simpa using hk⟩
    · cases hvo : o.values with
      | none => rw [hvo] at hv; simp at hv
      | some d =>
        cases d with
        | list items => exact Or.inl ⟨items, rfl⟩
        | tuple items =>
          rw [hvo] at hv
          refine Or.inr ⟨items, rfl, ?_⟩
          simpa using hv
  · rintro ⟨⟨k, hk, hnk⟩, hl, ht, hdom⟩
    simp only [Bool.and_eq_true]
    refine ⟨⟨⟨?_, hl⟩, ?_⟩, ht⟩
    · rw [hk]; simpa using hnk
    · rcases hdom with ⟨items, hv⟩ | ⟨items, hv, hlen⟩
      · rw [hv]
      · rw [hv]; simpa using hlen

theorem build_loop_ok_iff (nrm : String → String) (l : List RawOption) :
    (build_loop nrm l).2 = true ↔ ∀ o ∈ l, rawOptionOk nrm o = true := by
  induction l with
  | nil => simp [build_loop]
  | cons o rest ih =>
    unfold build_loop
    by_cases h : rawOptionOk nrm o = true
    · rw [if_pos h]
      cases hb : build_loop nrm rest with
      | mk lst ok =>
        rw [hb] at ih
        simp [h, ih]
    · rw [if_neg h]
      simp [h]

/-- C9 counterexample.  The claim says every option's domain must be "a
list of at least two items or a numeric range", and a violating schema
is rejected by an assertion.  The code's assertion accepts *any* list
(`isinstance(option['values'], list)` with no length check): the
concrete schema `[singleOpt]`, whose only option carries a single-item
list domain, violates the claim's condition yet passes every
assertion, and `_fetch_options` returns it instead of rejecting it. -/
theorem options_schema_claim_false :
    ¬ claimSchemaOk singleOpt ∧
    (fetch_options envC [] "s").1 = .ok ("s", entryS, instS, [buildOption singleOpt]) := by
  constructor
  · rintro ⟨_, _, _, ⟨items, hv, hlen⟩ | ⟨items, hv⟩⟩
    · have hitems : items = [(Val.str "x", "X")] := by
        have hv2 : some (Domain.list [(Val.str "x", "X")]) = some (Domain.list items) := hv
        cases hv2
        rfl
      subst hitems
      simp at hlen
    · have hv2 : some (Domain.list [(Val.str "x", "X")]) = some (Domain.tuple items) := hv
      cases hv2
  · rfl

/-- C9 (amended).  What `_fetch_options` actually enforces when it
builds a schema: every option must declare a key (already in
normalized form), a label, a domain, and a transform, and the domain
must be either a list (of *any* length) or a tuple of two or three
elements; a schema violating any of these is rejected with an
`AssertionError` rather than returned, and otherwise the processed
schema is returned. -/
theorem fetch_options_schema_check (e : Env) (svcs : Svcs) (svcId nid : String)
    (entry : ServiceEntry) (inst : SvcInstance) (svcs1 : Svcs)
    (hfs : fetch_service e svcs svcId = (.ok (nid, entry, inst), svcs1))
    (hnone : (getSvc svcs1 nid).opts = none) :
    ((build_loop e.normalize inst.rawOptions).2 = true ↔
      ∀ o ∈ inst.rawOptions,
        (∃ k, o.key = some k ∧ e.normalize k = k) ∧
        o.label.isSome = true ∧ o.transform.isSome = true ∧
        ((∃ items, o.values = some (.list items)) ∨
         (∃ items, o.values = some (.tuple items) ∧
            (items.length = 2 ∨ items.length = 3)))) ∧
    ((fetch_options e svcs svcId).1
      = if (build_loop e.normalize inst.rawOptions).2
        then .ok (nid, entry, inst, (build_loop e.normalize inst.rawOptions).1)
        else .error .assertionError) := by
  constructor
  · rw [build_loop_ok_iff]
    constructor
    · intro h o ho
      exact (rawOptionOk_iff e.normalize o).mp (h o ho)
    · intro h o ho
      exact (rawOptionOk_iff e.normalize o).mpr (h o ho)
  · simp only [fetch_options, hfs, hnone]
    cases hb : build_loop e.normalize inst.rawOptions with
    | mk lst ok =>
      cases ok with
      | true => simp
      | false => simp

/-- Witness for C9 (amended): fetching the single-item-list schema in
the concrete environment returns it (the assertions all pass). -/
theorem fetch_options_schema_check_witness :
    (fetch_options envC [] "s").1
      = if (build_loop envC.normalize instS.rawOptions).2
        then .ok ("s", entryS, instS, (build_loop envC.normalize instS.rawOptions).1)
        else .error .assertionError :=
  (fetch_options_schema_check envC [] "s" "s" entryS instS
      [("s", { inst := some (some instS), opts := none })] rfl rfl).2

/-! ## C8 — option defaulting -/

theorem lookupA_checkPresent_ne (m : List (String × Val)) (o : SvcOption) (raw : Val)
    {k : String} (h : o.key ≠ k) :
    lookupA (checkPresent m o raw).1 k = lookupA m k := by
  unfold checkPresent
  cases o.transform raw with
  | none => rfl
  | some tv =>
    cases o.values with
    | tuple items =>
      dsimp only
      split
      · rfl
      · exact lookupA_alistSet_ne m tv h
    | list items =>
      dsimp only
      split
      · exact lookupA_alistSet_ne m tv h
      · rfl

theorem validate_options_preserve (l : List SvcOption) :
    ∀ (m : List (String × Val)) {k : String}, (∀ o ∈ l, o.key ≠ k) →
      lookupA (validate_options l m).1 k = lookupA m k := by
  induction l with
  | nil => intro m k _; rfl
  | cons o rest ih =>
    intro m k h
    have hko : o.key ≠ k := h o (List.mem_cons_self o rest)
    have hrest : ∀ o2 ∈ rest, o2.key ≠ k := fun o2 h2 => h o2 (List.mem_cons_of_mem o h2)
    unfold validate_options
    cases hl : lookupA m o.key with
    | some raw =>
      dsimp only
      cases hcp : checkPresent m o raw with
      | mk m1 prob =>
        cases hvo : validate_options rest m1 with
        | mk m2 probs =>
          dsimp only
          have h1 : lookupA m1 k = lookupA m k := by
            have h0 := lookupA_checkPresent_ne m o raw hko
            rw [hcp] at h0; exact h0
          have h2 : lookupA m2 k = lookupA m1 k := by
            have h0 := ih m1 hrest
            rw [hvo] at h0; exact h0
          rw [h2, h1]
    | none =>
      cases hd : o.default with
      | some d0 =>
        dsimp only
        rw [ih (alistSet m o.key d0) hrest, lookupA_alistSet_ne m d0 hko]
      | none =>
        dsimp only
        cases hvo : validate_options rest m with
        | mk m2 probs =>
          dsimp only
          have h0 := ih m hrest
          rw [hvo] at h0
          exact h0

theorem validate_options_default (d : SvcOption) (v : Val) (hdef : d.default = some v) :
    ∀ (l : List SvcOption) (m : List (String × Val)),
      (l.map (fun o => o.key)).Nodup → d ∈ l → lookupA m d.key = none →
      lookupA (validate_options l m).1 d.key = some v := by
  intro l
  induction l with
  | nil => intro m _ hd _; cases hd
  | cons o rest ih =>
    intro m hnd hd hm
    rw [List.map_cons, List.nodup_cons] at hnd
    obtain ⟨hno, hnd2⟩ := hnd
    rcases List.mem_cons.mp hd with rfl | hdr
    · unfold validate_options
      rw [hm, hdef]
      dsimp only
      have hrest : ∀ o2 ∈ rest, o2.key ≠ d.key := by
        intro o2 h2 heq
        exact hno (heq ▸ List.mem_map.mpr ⟨o2, h2, rfl⟩)
      rw [validate_options_preserve rest _ hrest]
      exact lookupA_alistSet_self m d.key v
    · have hne : o.key ≠ d.key := by
        intro heq
        exact hno (heq ▸ List.mem_map.mpr ⟨d, hdr, rfl⟩)
      unfold validate_options
      cases hl : lookupA m o.key with
      | some raw =>
        dsimp only
        cases hcp : checkPresent m o raw with
        | mk m1 prob =>
          cases hvo : validate_options rest m1 with
          | mk m2 probs =>
            dsimp only
            have hm1 : lookupA m1 d.key = none := by
              have h0 := lookupA_checkPresent_ne m o raw hne
              rw [hcp] at h0; rw [h0]; exact hm
            have h0 := ih m1 hnd2 hdr hm1
            rw [hvo] at h0
            exact h0
      | none =>
        cases hdo : o.default with
        | some d0 =>
          dsimp only
          exact ih (alistSet m o.key d0) hnd2 hdr
            (by rw [lookupA_alistSet_ne m d0 hne]; exact hm)
        | none =>
          dsimp only
          cases hvo : validate_options rest m with
          | mk m2 probs =>
            dsimp only
            have h0 := ih m hnd2 hdr hm
            rw [hvo] at h0
            exact h0

theorem lookupA_normalized_filtered_none (e : Env) (keys : List String)
    (copts : List (String × Val)) {k : String}
    (h : ∀ p ∈ copts, e.normalize p.1 ≠ k) :
    lookupA (normalized_filtered e keys copts) k = none := by
  unfold normalized_filtered
  have hmap : ∀ q ∈ copts.map (fun p => (e.normalize p.1, p.2)), q.1 ≠ k := by
    intro q hq
    obtain ⟨p, hp, rfl⟩ := List.mem_map.mp hq
    exact h p hp
  generalize copts.map (fun p => (e.normalize p.1, p.2)) = l at hmap
  have : ∀ init : List (String × Val), lookupA init k = none →
      lookupA (l.foldl (fun m p => if p.1 ∈ keys then alistSet m p.1 p.2 else m) init) k
        = none := by
    induction l with
    | nil => intro init hi; exact hi
    | cons p rest ihl =>
      intro init hi
      have hp : p.1 ≠ k := hmap p (List.mem_cons_self p rest)
      rw [List.foldl_cons]
      refine ihl (fun q hq => hmap q (List.mem_cons_of_mem p hq)) _ ?_
      dsimp only
      split
      · rw [lookupA_alistSet_ne init p.2 hp]; exact hi
      · exact hi
  exact this [] rfl

theorem validate_service_eq_fetch_err {e : Env} {svcs : Svcs} {svcId : String}
    {err : Err} {svcs1 : Svcs} (copts : List (String × Val))
    (hf : fetch_options e svcs svcId = (.error err, svcs1)) :
    validate_service e svcs svcId copts = (.error err, svcs1) := by
  unfold validate_service
  simp only [hf]

theorem validate_service_eq_ok {e : Env} {svcs : Svcs} {svcId : String}
    {nid : String} {entry : ServiceEntry} {inst : SvcInstance}
    {svcOptions : List SvcOption} {svcs1 : Svcs}
    {opts0 : List (String × Val)} {problems : List Problem}
    (copts : List (String × Val))
    (hf : fetch_options e svcs svcId = (.ok (nid, entry, inst, svcOptions), svcs1))
    (hvo : validate_options svcOptions
        (normalized_filtered e (svcOptions.map (fun o => o.key)) copts)
      = (opts0, problems))
    (hpb : problems.isEmpty = true) :
    validate_service e svcs svcId copts = (.ok (nid, entry, inst, opts0), svcs1) := by
  unfold validate_service
  simp only [hf, hvo, hpb, if_true]

theorem validate_service_eq_problems {e : Env} {svcs : Svcs} {svcId : String}
    {nid : String} {entry : ServiceEntry} {inst : SvcInstance}
    {svcOptions : List SvcOption} {svcs1 : Svcs}
    {opts0 : List (String × Val)} {problems : List Problem}
    (copts : List (String × Val))
    (hf : fetch_options e svcs svcId = (.ok (nid, entry, inst, svcOptions), svcs1))
    (hvo : validate_options svcOptions
        (normalized_filtered e (svcOptions.map (fun o => o.key)) copts)
      = (opts0, problems))
    (hpb : problems.isEmpty = false) :
    validate_service e svcs svcId copts = (.error (.optionError problems), svcs1) := by
  unfold validate_service
  simp only [hf, hvo, hpb, Bool.false_eq_true, if_false]

theorem validate_service_ok_inv {e : Env} {svcs : Svcs} {svcId : String}
    {copts : List (String × Val)} {nid : String} {entry : ServiceEntry}
    {inst : SvcInstance} {opts : List (String × Val)} {svcs1 : Svcs}
    (h : validate_service e svcs svcId copts = (.ok (nid, entry, inst, opts), svcs1)) :
    ∃ svcOptions problems,
      fetch_options e svcs svcId = (.ok (nid, entry, inst, svcOptions), svcs1) ∧
      validate_options svcOptions
          (normalized_filtered e (svcOptions.map (fun o => o.key)) copts)
        = (opts, problems) ∧
      problems.isEmpty = true := by
  cases hf : fetch_options e svcs svcId with
  | mk res svcsf =>
  cases res with
  | error err =>
    rw [validate_service_eq_fetch_err copts hf] at h
    exact absurd h (by simp)
  | ok r =>
  obtain ⟨nf, ef, insf, so⟩ := r
  cases hvo : validate_options so (normalized_filtered e (so.map (fun o => o.key)) copts) with
  | mk opts0 problems =>
  cases hpb : problems.isEmpty with
  | false =>
    rw [validate_service_eq_problems copts hf hvo hpb] at h
    exact absurd h (by simp)
  | true =>
    rw [validate_service_eq_ok copts hf hvo hpb] at h
    simp only [Prod.mk.injEq, Except.ok.injEq] at h
    obtain ⟨⟨h1, h2, h3, h4⟩, h5⟩ := h
    subst h1; subst h2; subst h3; subst h4; subst h5
    exact ⟨so, problems, rfl, hvo, hpb⟩

/-- C8.  Option defaulting: when the schema declares an option `d` with
a default value and the caller's map contains no key normalizing to
`d`'s key, every dispatch that reaches execution submits a job whose
validated option map — the map passed to the backend's `run` — binds
`d`'s key to the declared default.  (The schema's keys are assumed
distinct, which `_fetch_options`'s normalized-key assertion makes the
realistic case.) -/
theorem option_defaulting (e : Env) (st : RouterState) (svcId text : String)
    (copts : List (String × Val)) (cb : Callbacks)
    (nid : String) (entry : ServiceEntry) (inst : SvcInstance)
    (svcOptions : List SvcOption) (svcs1 : Svcs)
    (d : SvcOption) (v : Val) (evs : List Event) (st1 : RouterState) (job : Job)
    (hfetch : fetch_options e st.svc svcId = (.ok (nid, entry, inst, svcOptions), svcs1))
    (hnd : (svcOptions.map (fun o => o.key)).Nodup)
    (hd : d ∈ svcOptions)
    (hdef : d.default = some v)
    (homit : ∀ p ∈ copts, e.normalize p.1 ≠ d.key)
    (hdisp : dispatch e st svcId text copts cb = (evs, st1, some job)) :
    lookupA job.options d.key = some v := by
  obtain ⟨t, nid2, entry2, inst2, opts, svcs2, hvt, hval, hjob, _, _, _, _⟩ :=
    dispatch_spawn_inv hdisp
  obtain ⟨so, problems, hf2, hvo, _⟩ := validate_service_ok_inv hval
  rw [hfetch] at hf2
  simp only [Prod.mk.injEq, Except.ok.injEq] at hf2
  obtain ⟨⟨e1, e2, e3, e4⟩, _⟩ := hf2
  subst e4
  have hm0 : lookupA (normalized_filtered e (svcOptions.map (fun o => o.key)) copts)
      d.key = none :=
    lookupA_normalized_filtered_none e _ copts homit
  have hres := validate_options_default d v hdef svcOptions
    (normalized_filtered e (svcOptions.map (fun o => o.key)) copts) hnd hd hm0
  rw [hvo] at hres
  rw [hjob]
  exact hres

/-- Witness for C8: the concrete dispatch that omits `"voice"` submits a
job whose option map binds `"voice"` to the declared default
`"en"`. -/
theorem option_defaulting_witness :
    lookupA jobA.options "voice" = some (Val.str "en") :=
  option_defaulting envA st0 "a" "hello" [("rate", Val.int 5)] cbD
    "a" entryA instA builtA svcsA (buildOption rawVoice) (Val.str "en")
    [] st1A jobA rfl (by decide) (List.Mem.head _) rfl (by decide) rfl

/-! ## C1 — single-flight -/

theorem load_service_isSome (entry : ServiceEntry) (s : SvcState) :
    (load_service entry s).inst.isSome = true := by
  unfold load_service
  split
  · assumption
  · rfl

theorem fetch_service_ready {e : Env} {svcId nid : String} {entry : ServiceEntry}
    {inst : SvcInstance} {s : SvcState} (svcs : Svcs)
    (hres : resolveId e svcId = nid)
    (hent : lookupA e.lookupTable nid = some entry)
    (hlook : lookupA svcs nid = some s)
    (hinst : s.inst = some (some inst)) :
    fetch_service e svcs svcId = (.ok (nid, entry, inst), svcs) := by
  have hgs : getSvc svcs nid = s := by simp [getSvc, hlook]
  have hl : load_service entry s = s := by
    unfold load_service
    rw [if_pos (by rw [hinst]; rfl)]
  simp only [fetch_service, hres, hent, hgs, hl, hinst]
  rw [setSvc_of_lookupA svcs hlook]

theorem fetch_service_ok_inv {e : Env} {svcs : Svcs} {svcId nid : String}
    {entry : ServiceEntry} {inst : SvcInstance} {svcs1 : Svcs}
    (h : fetch_service e svcs svcId = (.ok (nid, entry, inst), svcs1)) :
    resolveId e svcId = nid ∧ lookupA e.lookupTable nid = some entry ∧
    lookupA svcs1 nid = some (load_service entry (getSvc svcs nid)) ∧
    (load_service entry (getSvc svcs nid)).inst = some (some inst) ∧
    svcs1 = setSvc svcs nid (load_service entry (getSvc svcs nid)) := by
  unfold fetch_service at h
  cases hent : lookupA e.lookupTable (resolveId e svcId) with
  | none =>
    simp only [hent] at h
    exact absurd h (by simp)
  | some entry2 =>
  simp only [hent] at h
  cases hinst : (load_service entry2 (getSvc svcs (resolveId e svcId))).inst with
  | none =>
    simp only [hinst] at h
    exact absurd h (by simp)
  | some oi =>
  cases oi with
  | none =>
    simp only [hinst] at h
    exact absurd h (by simp)
  | some inst2 =>
    simp only [hinst, Prod.mk.injEq, Except.ok.injEq] at h
    obtain ⟨⟨h1, h2, h3⟩, h4⟩ := h
    subst h1; subst h2; subst h3
    refine ⟨rfl, hent, ?_, hinst, h4.symm⟩
    rw [← h4]
    exact lookupA_setSvc_self svcs _ _

theorem fetch_service_idem {e : Env} {svcs : Svcs} {svcId nid : String}
    {entry : ServiceEntry} {inst : SvcInstance} {svcs1 : Svcs}
    (h : fetch_service e svcs svcId = (.ok (nid, entry, inst), svcs1)) :
    fetch_service e svcs1 svcId = (.ok (nid, entry, inst), svcs1) := by
  obtain ⟨hres, hent, hlook, hinst, _⟩ := fetch_service_ok_inv h
  exact fetch_service_ready svcs1 hres hent hlook hinst

theorem fetch_options_idem {e : Env} {svcs : Svcs} {svcId nid : String}
    {entry : ServiceEntry} {inst : SvcInstance} {lst : List SvcOption} {svcs1 : Svcs}
    (h : fetch_options e svcs svcId = (.ok (nid, entry, inst, lst), svcs1)) :
    fetch_options e svcs1 svcId = (.ok (nid, entry, inst, lst), svcs1) := by
  unfold fetch_options at h
  cases hfs : fetch_service e svcs svcId with
  | mk res svcsf =>
  rw [hfs] at h
  cases res with
  | error err =>
    simp only [] at h
    exact absurd h (by simp)
  | ok r =>
  obtain ⟨nf, ef, insf⟩ := r
  cases hopts : (getSvc svcsf nf).opts with
  | some lst0 =>
    simp only [hopts] at h
    simp only [Prod.mk.injEq, Except.ok.injEq] at h
    obtain ⟨⟨e1, e2, e3, e4⟩, e5⟩ := h
    subst e1; subst e2; subst e3; subst e4; subst e5
    unfold fetch_options
    rw [fetch_service_idem hfs]
    simp only [hopts]
  | none =>
    cases hbl : build_loop e.normalize insf.rawOptions with
    | mk lst2 ok =>
    simp only [hopts, hbl] at h
    cases ok with
    | false =>
      simp only [Bool.false_eq_true, if_false] at h
      exact absurd h (by simp)
    | true =>
      simp only [if_true] at h
      simp only [Prod.mk.injEq, Except.ok.injEq] at h
      obtain ⟨⟨e1, e2, e3, e4⟩, e5⟩ := h
      subst e1; subst e2; subst e3; subst e4
      obtain ⟨hres, hent, hlook, hinst, _⟩ := fetch_service_ok_inv hfs
      have hgs : getSvc svcsf nf = load_service ef (getSvc svcs nf) := by
        simp [getSvc, hlook]
      have hs2inst :
          (SvcState.mk (getSvc svcsf nf).inst (some lst2)).inst = some (some insf) := by
        show (getSvc svcsf nf).inst = some (some insf)
        rw [hgs]
        exact hinst
      have hready : fetch_service e svcs1 svcId
          = (.ok (nf, ef, insf), svcs1) := by
        refine fetch_service_ready svcs1 hres hent ?_ hs2inst
        rw [← e5]
        exact lookupA_setSvc_self svcsf nf _
      unfold fetch_options
      rw [hready]
      have hgs1 : getSvc svcs1 nf = ⟨(getSvc svcsf nf).inst, some lst2⟩ := by
        rw [← e5]
        exact getSvc_setSvc_self svcsf nf _
      simp only [hgs1]

theorem validate_service_idem {e : Env} {svcs : Svcs} {svcId : String}
    {copts : List (String × Val)}
    {r : String × ServiceEntry × SvcInstance × List (String × Val)} {svcs1 : Svcs}
    (h : validate_service e svcs svcId copts = (.ok r, svcs1)) :
    validate_service e svcs1 svcId copts = (.ok r, svcs1) := by
  obtain ⟨nid, entry, inst, opts⟩ := r
  obtain ⟨so, problems, hf, hvo, hpb⟩ := validate_service_ok_inv h
  exact validate_service_eq_ok copts (fetch_options_idem hf) hvo hpb

/-- C1.  Single-flight: when a dispatch has submitted an execution
(the cold-cache branch, which appends the resolved path to `_busy`),
a second dispatch with the identical `(svcId, text, options)` arriving
before the first execution's completion callback fires resolves the
same path, finds it in `_busy`, and fails with `BusyError` through its
failure continuation, submitting nothing and leaving the state
unchanged — so exactly one execution is submitted for the pair.
Moreover, while any path is a member of the in-flight set, no dispatch
whatsoever submits an execution for that path. -/
theorem single_flight (e : Env) (st : RouterState) (svcId text : String)
    (copts : List (String × Val)) (cb1 cb2 : Callbacks)
    (evs1 : List Event) (st1 : RouterState) (job : Job)
    (h1 : dispatch e st svcId text copts cb1 = (evs1, st1, some job)) :
    dispatch e st1 svcId text copts cb2
      = (done_events cb2 ++ [.fail (.busyError job.path)], st1, none) ∧
    (∀ (svcId2 text2 : String) (copts2 : List (String × Val)) (cb3 : Callbacks)
       (st2 : RouterState) (evs2 : List Event) (st3 : RouterState) (job2 : Job),
       job.path ∈ st2.busy →
       dispatch e st2 svcId2 text2 copts2 cb3 = (evs2, st3, some job2) →
       job2.path ≠ job.path) := by
  obtain ⟨t, nid, entry, inst, opts, svcs1, hvt, hval, hjob, hmem, hfs, hevs, hst1⟩ :=
    dispatch_spawn_inv h1
  constructor
  · subst hst1
    subst hjob
    have hval2 : validate_service e svcs1 svcId copts
        = (.ok (nid, entry, inst, opts), svcs1) :=
      validate_service_idem hval
    have hvp2 : validate_path e (st.busy ++ [path_cache e nid t opts]) nid t opts
        = .error (.busyError (path_cache e nid t opts)) :=
      validate_path_mem (List.mem_append_right _ (List.mem_singleton.mpr rfl))
    exact dispatch_eq_path_busy cb2 hvt hval2 hvp2
  · intro svcId2 text2 copts2 cb3 st2 evs2 st3 job2 hmem2 h2 heq
    obtain ⟨t2, nid2, entry2, inst2, opts2, svcs2, _, _, _, hnb, _, _, _⟩ :=
      dispatch_spawn_inv h2
    rw [heq] at hnb
    exact hnb hmem2

/-- Witness for C1: after the first cold-cache dispatch submits the
execution for `pathA`, the identical second dispatch fails with
`BusyError` and submits nothing. -/
theorem single_flight_witness :
    dispatch envA st1A "a" "hello" [("rate", Val.int 5)] cbN
      = (done_events cbN ++ [.fail (.busyError jobA.path)], st1A, none) :=
  (single_flight envA st0 "a" "hello" [("rate", Val.int 5)] cbD cbN
      [] st1A jobA rfl).1

end AwesomeTTS
